import Mathlib

/-!
Verification of the mainframehub core against its natural-language
specification.  The TypeScript services are shallowly embedded as pure
Lean functions: subprocess/network calls become oracle functions passed
in explicitly, thrown exceptions become `Option`/`Except` values, and
JavaScript strings become `String`/`List Char` with explicit helpers
mirroring the JS operations used by the code.
-/

/-! ## JS string helpers (semantics of the operations the source uses) -/

/-- The single-quote character, written numerically. -/
def squote : Char := Char.ofNat 39

/-- The backslash character, written numerically. -/
def bslash : Char := Char.ofNat 92

/-- JS `\s` on the ASCII range (space, tab, LF, CR, VT, FF). -/
def isJsSpace (c : Char) : Bool :=
  c == ' ' || c == '\t' || c == '\n' || c == '\r' ||
    c == Char.ofNat 11 || c == Char.ofNat 12

/-- JS `.` (any char except line terminators, ASCII model). -/
def isJsDot (c : Char) : Bool :=
  c != '\n' && c != '\r'

/-- JS `String.prototype.trim` on a char list: drop whitespace at both ends. -/
def trimList (l : List Char) : List Char :=
  ((l.dropWhile isJsSpace).reverse.dropWhile isJsSpace).reverse

/-! ## git remote parsing (`parseRepo`, git.ts)

The source matches the remote URL against the regular expression
`github\.com[:/]([^/]+\/[^/.]+)` and strips a trailing `.git` from the
captured group, throwing when there is no match.  `repoCapture` tries the
regex at one position; `scanRepo` scans left to right like JS `match`. -/

/-- The literal `github.com` the regex requires. -/
def ghLit : List Char := "github.com".data

/-- Try the pattern at the current position: the literal `github.com`,
one of `:`/`/`, then the capture `[^/]+` `/` `[^/.]+`. -/
def repoCapture (cs : List Char) : Option (List Char) :=
  if ghLit.isPrefixOf cs then
    match cs.drop ghLit.length with
    | [] => none
    | c :: rest =>
      if c == ':' || c == '/' then
        let seg1 := rest.takeWhile (fun d => d != '/')
        let rest2 := rest.dropWhile (fun d => d != '/')
        if seg1.isEmpty then none
        else
          match rest2 with
          | [] => none
          | d :: rest3 =>
            let seg2 := rest3.takeWhile (fun e => e != '/' && e != '.')
            if seg2.isEmpty then none else some (seg1 ++ d :: seg2)
      else none
  else none

/-- Leftmost-match scan, like `String.prototype.match`. -/
def scanRepo : List Char → Option (List Char)
  | [] => none
  | c :: cs =>
    match repoCapture (c :: cs) with
    | some cap => some cap
    | none => scanRepo cs

/-- `.replace(/\.git$/, '')` on the captured group. -/
def stripDotGit (cap : List Char) : List Char :=
  if ".git".data.isSuffixOf cap then cap.take (cap.length - 4) else cap

/-- `parseRepo` (git.ts): parse `owner/repo` out of a git remote URL,
failing explicitly when the URL does not match the GitHub pattern. -/
def parseRepo (remote : String) : Except String String :=
  match scanRepo remote.data with
  | some cap => .ok (String.mk (stripDotGit cap))
  | none => .error ("Invalid GitHub remote: " ++ remote)

/-! ## Data model (tmux.ts, git.ts, github.ts) -/

/-- A tmux session as parsed by `TmuxService.list` (tmux.ts). -/
structure TmuxSession where
  id : String
  workingDir : String
  created : Nat
  attached : Bool
deriving DecidableEq, Repr

/-- `GitInfo` (git.ts): the repository snapshot read from a working
directory. -/
structure GitInfo where
  remote : String
  repo : String
  branch : String
  isDirty : Bool
  ahead : Nat
  behind : Nat
deriving DecidableEq, Repr

/-- Pull-request lifecycle state (github.ts). -/
inductive PRLifecycle where
  | opened
  | closedPR
  | merged
deriving DecidableEq, Repr

/-- `PullRequest` (github.ts).  `Date` fields become epoch numbers. -/
structure PullRequest where
  number : Nat
  title : String
  branch : String
  baseBranch : String
  repo : String
  state : PRLifecycle
  url : String
  author : String
  isDraft : Bool
  created : Nat
  updated : Nat
deriving DecidableEq, Repr

/-- `SessionState` (services/discovery, claude.ts doc): a session joined
with its optional git snapshot and matched PR. -/
structure SessionState where
  session : TmuxSession
  gitInfo : Option GitInfo
  pr : Option PullRequest
  hasGit : Bool
  hasPR : Bool
  isActive : Bool
deriving DecidableEq, Repr

/-! ## Discovery engine (DiscoveryService, claude.ts lines 114-203)

External calls are oracles: `getInfo` models `git.getInfo` (`none` = the
call threw), `listPRs` models `github.listPRs` with the open filter (`none`
= the call threw). -/

/-- The external ports `DiscoveryService.discover` reads through. -/
structure DiscoveryEnv where
  getInfo : String → Option GitInfo
  listPRs : String → Option (List PullRequest)

/-- Association-list lookup, modelling JS `Map.get`. -/
def alookup {α : Type} (m : List (String × α)) (k : String) : Option α :=
  (m.find? (fun p => p.1 == k)).map Prod.snd

/-- The repo-collection loop of `discover`: for each session try
`git.getInfo` and add the repo identifier to the set (insertion order,
skipping duplicates); a throwing `getInfo` skips the session. -/
def collectRepos (getInfo : String → Option GitInfo) :
    List TmuxSession → List String → List String
  | [], acc => acc
  | s :: ss, acc =>
    match getInfo s.workingDir with
    | some gi =>
      collectRepos getInfo ss (if gi.repo ∈ acc then acc else acc ++ [gi.repo])
    | none => collectRepos getInfo ss acc

/-- The branch-map loop of `discover`: store the first PR seen for each
branch (`if (!branchMap.has(pr.branch)) branchMap.set(...)`). -/
def buildBranchMap : List PullRequest → List (String × PullRequest) →
    List (String × PullRequest)
  | [], m => m
  | pr :: rest, m =>
    buildBranchMap rest
      (if (alookup m pr.branch).isSome then m else m ++ [(pr.branch, pr)])

/-- The bulk-fetch loop of `discover`: one `listPRs` call per collected
repo; a repo whose fetch throws is skipped (no map entry). -/
def buildPRMap (listPRs : String → Option (List PullRequest)) :
    List String → List (String × List (String × PullRequest))
  | [] => []
  | repo :: rest =>
    match listPRs repo with
    | some prs => (repo, buildBranchMap prs []) :: buildPRMap listPRs rest
    | none => buildPRMap listPRs rest

/-- `DiscoveryService.discoverOneWithCache`: assemble one session state
from the prebuilt PR map; a throwing `getInfo` leaves `gitInfo = null`,
`hasGit = false`, `hasPR = false`. -/
def discoverOneWithCache (getInfo : String → Option GitInfo)
    (prMap : List (String × List (String × PullRequest)))
    (s : TmuxSession) : Option SessionState :=
  let gitInfo := getInfo s.workingDir
  let pr : Option PullRequest :=
    match gitInfo with
    | some gi =>
      match alookup prMap gi.repo with
      | some bm => alookup bm gi.branch
      | none => none
    | none => none
  some
    { session := s
      gitInfo := gitInfo
      pr := pr
      hasGit := gitInfo.isSome
      hasPR := pr.isSome
      isActive := s.attached }

/-- Result of one discovery pass: the assembled states plus the list of
repositories for which a `listPRs` call was issued (the call trace of
the bulk-fetch phase). -/
structure DiscoverResult where
  states : List SessionState
  listPRsCalls : List String
deriving Repr

/-- `DiscoveryService.discover` (claude.ts lines 114-157): list sessions,
collect distinct repos, bulk-fetch PRs once per repo, then join locally. -/
def discover (env : DiscoveryEnv) (sessions : List TmuxSession) :
    DiscoverResult :=
  let repos := collectRepos env.getInfo sessions []
  let prMap := buildPRMap env.listPRs repos
  { states := (sessions.map (discoverOneWithCache env.getInfo prMap)).filterMap id
    listPRsCalls := repos }

/-- The repo identifiers of the sessions whose snapshot read succeeds
(with multiplicity, in session order). -/
def sessionRepos (getInfo : String → Option GitInfo)
    (sessions : List TmuxSession) : List String :=
  sessions.filterMap (fun s => (getInfo s.workingDir).map GitInfo.repo)

/-! ## Discovery lemmas -/

lemma alookup_append {α : Type} (m₁ m₂ : List (String × α)) (b : String) :
    alookup (m₁ ++ m₂) b = (alookup m₁ b).or (alookup m₂ b) := by
  simp only [alookup, List.find?_append]
  cases m₁.find? (fun p => p.1 == b) <;> simp

lemma alookup_single {α : Type} (k b : String) (v : α) :
    alookup [(k, v)] b = if k == b then some v else none := by
  by_cases h : k = b
  · simp [alookup, List.find?, h]
  · have hbeq : (k == b) = false := by simpa using h
    simp [alookup, List.find?, hbeq]

lemma collectRepos_cons_none (g : String → Option GitInfo) (s : TmuxSession)
    (ss : List TmuxSession) (acc : List String) (h : g s.workingDir = none) :
    collectRepos g (s :: ss) acc = collectRepos g ss acc := by
  rw [collectRepos, h]

lemma collectRepos_cons_some (g : String → Option GitInfo) (s : TmuxSession)
    (ss : List TmuxSession) (acc : List String) (gi : GitInfo)
    (h : g s.workingDir = some gi) :
    collectRepos g (s :: ss) acc
      = collectRepos g ss (if gi.repo ∈ acc then acc else acc ++ [gi.repo]) := by
  rw [collectRepos, h]

lemma sessionRepos_cons_none (g : String → Option GitInfo) (s : TmuxSession)
    (ss : List TmuxSession) (h : g s.workingDir = none) :
    sessionRepos g (s :: ss) = sessionRepos g ss := by
  simp [sessionRepos, List.filterMap_cons, h]

lemma sessionRepos_cons_some (g : String → Option GitInfo) (s : TmuxSession)
    (ss : List TmuxSession) (gi : GitInfo) (h : g s.workingDir = some gi) :
    sessionRepos g (s :: ss) = gi.repo :: sessionRepos g ss := by
  simp [sessionRepos, List.filterMap_cons, h]

lemma collectRepos_nodup (g : String → Option GitInfo) :
    ∀ (ss : List TmuxSession) (acc : List String), acc.Nodup →
      (collectRepos g ss acc).Nodup
  | [], _, h => h
  | s :: ss, acc, h => by
    cases hgi : g s.workingDir with
    | none => rw [collectRepos_cons_none g s ss acc hgi]
              exact collectRepos_nodup g ss acc h
    | some gi =>
      rw [collectRepos_cons_some g s ss acc gi hgi]
      by_cases hmem : gi.repo ∈ acc
      · rw [if_pos hmem]
        exact collectRepos_nodup g ss acc h
      · rw [if_neg hmem]
        refine collectRepos_nodup g ss _ ?_
        rw [List.nodup_append]
        exact ⟨h, List.nodup_singleton _, by simpa using hmem⟩

lemma collectRepos_mem (g : String → Option GitInfo) :
    ∀ (ss : List TmuxSession) (acc : List String) (x : String),
      x ∈ collectRepos g ss acc ↔ x ∈ acc ∨ x ∈ sessionRepos g ss
  | [], acc, x => by simp [collectRepos, sessionRepos]
  | s :: ss, acc, x => by
    cases hgi : g s.workingDir with
    | none =>
      rw [collectRepos_cons_none g s ss acc hgi, sessionRepos_cons_none g s ss hgi]
      exact collectRepos_mem g ss acc x
    | some gi =>
      rw [collectRepos_cons_some g s ss acc gi hgi,
        sessionRepos_cons_some g s ss gi hgi]
      by_cases hmem : gi.repo ∈ acc
      · rw [if_pos hmem, collectRepos_mem g ss acc x]
        constructor
        · rintro (hx | hx)
          · exact Or.inl hx
          · exact Or.inr (List.mem_cons_of_mem _ hx)
        · rintro (hx | hx)
          · exact Or.inl hx
          · rcases List.mem_cons.mp hx with rfl | hx
            · exact Or.inl hmem
            · exact Or.inr hx
      · rw [if_neg hmem, collectRepos_mem g ss _ x]
        simp only [List.mem_append, List.mem_singleton, List.mem_cons]
        tauto

lemma mem_discover_states (env : DiscoveryEnv) (sessions : List TmuxSession)
    (s : TmuxSession) (st : SessionState) (hs : s ∈ sessions)
    (hst : discoverOneWithCache env.getInfo
        (buildPRMap env.listPRs (collectRepos env.getInfo sessions [])) s
      = some st) :
    st ∈ (discover env sessions).states := by
  simp only [discover, List.mem_filterMap, id_eq, List.mem_map]
  exact ⟨_, ⟨s, hs, rfl⟩, hst⟩

lemma buildBranchMap_some (b : String) (v : PullRequest) :
    ∀ (prs : List PullRequest) (m : List (String × PullRequest)),
      alookup m b = some v → alookup (buildBranchMap prs m) b = some v
  | [], _, h => h
  | pr :: rest, m, h => by
    rw [buildBranchMap]
    refine buildBranchMap_some b v rest _ ?_
    cases hdup : alookup m pr.branch with
    | some x => simpa [hdup] using h
    | none =>
      simp only [hdup, Option.isSome_none, Bool.false_eq_true, if_false]
      rw [alookup_append, h]
      rfl

lemma buildBranchMap_none (b : String) :
    ∀ (prs : List PullRequest) (m : List (String × PullRequest)),
      alookup m b = none →
      alookup (buildBranchMap prs m) b = prs.find? (fun pr => pr.branch == b)
  | [], m, h => by simpa [buildBranchMap, List.find?] using h
  | pr :: rest, m, h => by
    rw [buildBranchMap]
    by_cases hb : pr.branch = b
    · subst hb
      rw [h]
      simp only [Option.isSome_none, Bool.false_eq_true, if_false]
      rw [buildBranchMap_some pr.branch pr rest _ ?_]
      · simp [List.find?]
      · rw [alookup_append, h, alookup_single]
        simp
    · have hbeq : (pr.branch == b) = false := by simpa using hb
      have hm : alookup (if (alookup m pr.branch).isSome then m
          else m ++ [(pr.branch, pr)]) b = none := by
        cases hdup : alookup m pr.branch with
        | some x => simpa [hdup] using h
        | none =>
          simp only [hdup, Option.isSome_none, Bool.false_eq_true, if_false]
          rw [alookup_append, h, alookup_single, hbeq]
          rfl
      rw [buildBranchMap_none b rest _ hm]
      simp [List.find?, hbeq]

lemma buildPRMap_alookup (listPRs : String → Option (List PullRequest)) :
    ∀ (repos : List String) (r : String) (prs : List PullRequest),
      r ∈ repos → listPRs r = some prs →
      alookup (buildPRMap listPRs repos) r = some (buildBranchMap prs [])
  | [], _, _, hr, _ => absurd hr (List.not_mem_nil _)
  | repo :: rest, r, prs, hr, hprs => by
    by_cases heq : repo = r
    · subst heq
      rw [buildPRMap, hprs]
      simp [alookup, List.find?]
    · have hrest : r ∈ rest := by
        rcases List.mem_cons.mp hr with rfl | h
        · exact absurd rfl heq
        · exact h
      have hbeq : (repo == r) = false := by simpa using heq
      rw [buildPRMap]
      cases hrepo : listPRs repo with
      | none => exact buildPRMap_alookup listPRs rest r prs hrest hprs
      | some prs0 =>
        simp only [alookup, List.find?, hbeq]
        exact buildPRMap_alookup listPRs rest r prs hrest hprs

/-! ## Claims about the Discovery Engine -/

/-- C1: one `discover()` pass issues exactly one `listPRs` call per
distinct repository identifier seen across the sessions with a valid
snapshot — the calls are pairwise distinct, cover exactly the distinct
identifiers, and number `N` = the cardinality of that identifier set,
regardless of how many sessions there are. -/
theorem discover_bulk_fetch_calls (env : DiscoveryEnv)
    (sessions : List TmuxSession) :
    (discover env sessions).listPRsCalls.Nodup ∧
    (discover env sessions).listPRsCalls.toFinset
      = (sessionRepos env.getInfo sessions).toFinset ∧
    (discover env sessions).listPRsCalls.length
      = (sessionRepos env.getInfo sessions).toFinset.card := by
  have hcalls : (discover env sessions).listPRsCalls
      = collectRepos env.getInfo sessions [] := rfl
  have hnd := collectRepos_nodup env.getInfo sessions [] List.nodup_nil
  have hfs : (collectRepos env.getInfo sessions []).toFinset
      = (sessionRepos env.getInfo sessions).toFinset := by
    ext x
    simp [List.mem_toFinset, collectRepos_mem]
  refine ⟨hcalls ▸ hnd, hcalls ▸ hfs, ?_⟩
  rw [hcalls, ← List.toFinset_card_of_nodup hnd, hfs]

/-- C3: a session whose snapshot read throws (`getInfo = none`) is still
included in the discovery result, with `gitInfo = null`, `hasGit = false`
and `hasPR = false`; `discover` is total, so the pass itself cannot
throw. -/
theorem discover_keeps_nongit_session (env : DiscoveryEnv)
    (sessions : List TmuxSession) (s : TmuxSession)
    (hs : s ∈ sessions) (hng : env.getInfo s.workingDir = none) :
    ({ session := s, gitInfo := none, pr := none, hasGit := false,
       hasPR := false, isActive := s.attached } : SessionState)
      ∈ (discover env sessions).states := by
  apply mem_discover_states env sessions s _ hs
  simp [discoverOneWithCache, hng]

theorem discover_keeps_nongit_session_witness :
    ({ session := { id := "dev", workingDir := "/home/u/notes", created := 0,
                    attached := false },
       gitInfo := none, pr := none, hasGit := false, hasPR := false,
       isActive := false } : SessionState)
      ∈ (discover { getInfo := fun _ => none, listPRs := fun _ => none }
          [{ id := "dev", workingDir := "/home/u/notes", created := 0,
             attached := false }]).states :=
  discover_keeps_nongit_session _ _ _ (List.mem_cons_self _ _) rfl

/-- C4: when the open-PR listing of a repository is `prs`, a session on
branch `b` of that repository is matched to `prs.find? (·.branch == b)` —
the first request in listing order whose head branch is string-equal
(exact, case-sensitive) to the session's branch; in particular, for
duplicate head branches the first-seen request wins, deterministically. -/
theorem discover_first_seen_wins (env : DiscoveryEnv)
    (sessions : List TmuxSession) (s : TmuxSession) (gi : GitInfo)
    (prs : List PullRequest) (hs : s ∈ sessions)
    (hgi : env.getInfo s.workingDir = some gi)
    (hprs : env.listPRs gi.repo = some prs) :
    ({ session := s, gitInfo := some gi,
       pr := prs.find? (fun pr => pr.branch == gi.branch),
       hasGit := true,
       hasPR := (prs.find? (fun pr => pr.branch == gi.branch)).isSome,
       isActive := s.attached } : SessionState)
      ∈ (discover env sessions).states := by
  apply mem_discover_states env sessions s _ hs
  have hmem : gi.repo ∈ collectRepos env.getInfo sessions [] := by
    rw [collectRepos_mem]
    refine Or.inr ?_
    simp only [sessionRepos, List.mem_filterMap]
    exact ⟨s, hs, by rw [hgi]; rfl⟩
  have hbm := buildPRMap_alookup env.listPRs _ gi.repo prs hmem hprs
  have hfind := buildBranchMap_none gi.branch prs [] rfl
  simp [discoverOneWithCache, hgi, hbm, hfind]

def prFirstW : PullRequest :=
  { number := 101, title := "first on feat-x", branch := "feat-x",
    baseBranch := "main", repo := "octo/rocket", state := .opened,
    url := "https://github.com/octo/rocket/pull/101", author := "ann",
    isDraft := false, created := 10, updated := 20 }

def prSecondW : PullRequest :=
  { number := 102, title := "second on feat-x", branch := "feat-x",
    baseBranch := "main", repo := "octo/rocket", state := .opened,
    url := "https://github.com/octo/rocket/pull/102", author := "bob",
    isDraft := false, created := 11, updated := 21 }

def sessFeatW : TmuxSession :=
  { id := "mfh-101", workingDir := "/clones/pr-101", created := 5,
    attached := true }

def giFeatW : GitInfo :=
  { remote := "git@github.com:octo/rocket.git", repo := "octo/rocket",
    branch := "feat-x", isDirty := false, ahead := 0, behind := 0 }

def envFeatW : DiscoveryEnv :=
  { getInfo := fun d => if d == "/clones/pr-101" then some giFeatW else none
    listPRs := fun r => if r == "octo/rocket" then some [prFirstW, prSecondW]
      else none }

theorem discover_first_seen_wins_witness :
    ({ session := sessFeatW, gitInfo := some giFeatW, pr := some prFirstW,
       hasGit := true, hasPR := true, isActive := true } : SessionState)
      ∈ (discover envFeatW [sessFeatW]).states :=
  discover_first_seen_wins envFeatW [sessFeatW] sessFeatW giFeatW
    [prFirstW, prSecondW] (List.mem_cons_self _ _) rfl rfl

/-! ## Stale-while-revalidate caches (pr-cache.ts, session-cache.ts)

The single-threaded event loop is modelled by treating each `get` as one
atomic step on the cache state; a refresh completing is a separate event,
so a run of `get` steps models a burst of concurrent callers arriving
while no refresh completes.  `updateInProgress.has(key)` becomes a
boolean per key; the promise payload is irrelevant to the claims. -/

/-- `CacheEntry` (pr-cache.ts): payload plus store/interaction times. -/
structure CacheEntry (α : Type) where
  data : α
  timestamp : Nat
  lastInteraction : Nat
deriving DecidableEq, Repr

/-- The per-user state of `PRCacheService`: the `cache` map and the
`updateInProgress` map (tracked as key presence). -/
structure PRCacheState (α : Type) where
  cache : String → Option (CacheEntry α)
  inFlight : String → Bool

/-- `ttlMs` of `PRCacheService`: 60 minutes. -/
def prCacheTtlMs : Nat := 60 * 60 * 1000

/-- What one `get` call did, as observable behaviour: which payload was
returned and whether a fresh `listPRs` refresh was started by this call. -/
inductive GetOutcome (α : Type) where
  | fresh : α → GetOutcome α
  | awaitInFlight : GetOutcome α
  | staleServed : α → GetOutcome α
  | blockingRefresh : GetOutcome α
deriving DecidableEq, Repr

/-- Number of refresh (`listPRs` / `discover`) calls one `get` issued. -/
def refreshCalls {α : Type} : GetOutcome α → Nat
  | .staleServed _ => 1
  | .blockingRefresh => 1
  | _ => 0

/-- Pointwise update of a keyed map. -/
def setAt {β : Type} (f : String → β) (k : String) (v : β) : String → β :=
  fun x => if x = k then v else f x

/-- `PRCacheService.get` (pr-cache.ts lines 30-54) as one atomic step:
fresh hit returns the entry and slides `lastInteraction`; an in-flight
refresh is awaited; a stale entry is served while starting a background
refresh; a missing entry starts a blocking refresh (which marks the key
in-flight before awaiting, lines 59-70). -/
def prCacheGet {α : Type} (s : PRCacheState α) (username : String)
    (now : Nat) : GetOutcome α × PRCacheState α :=
  match s.cache username with
  | some entry =>
    if now - entry.lastInteraction < prCacheTtlMs then
      (.fresh entry.data,
       { s with
         cache := setAt s.cache username (some { entry with lastInteraction := now }) })
    else if s.inFlight username then
      (.awaitInFlight, s)
    else
      (.staleServed entry.data,
       { s with inFlight := setAt s.inFlight username true })
  | none =>
    if s.inFlight username then
      (.awaitInFlight, s)
    else
      (.blockingRefresh, { s with inFlight := setAt s.inFlight username true })

/-- A burst of `get` calls for one key with no intervening refresh
completion: returns the final state and the total number of refresh
calls issued. -/
def prCacheRunGets {α : Type} (s : PRCacheState α) (username : String) :
    List Nat → PRCacheState α × Nat
  | [] => (s, 0)
  | now :: rest =>
    let step := prCacheGet s username now
    let tail := prCacheRunGets step.2 username rest
    (tail.1, refreshCalls step.1 + tail.2)

/-- `CacheEntry` of session-cache.ts: payload plus store time only. -/
structure SessionCacheEntry (α : Type) where
  data : α
  timestamp : Nat
deriving DecidableEq, Repr

/-- The state of `SessionCacheService` (one global key). -/
structure SessionCacheState (α : Type) where
  cache : Option (SessionCacheEntry α)
  updateInProgress : Bool
deriving DecidableEq, Repr

/-- `SessionCacheService.get` (session-cache.ts lines 29-50) as one
atomic step, analogous to `prCacheGet` but keyed globally and with a
fixed (non-sliding) TTL measured from `timestamp`. -/
def sessionCacheGet {α : Type} (ttlMs : Nat) (s : SessionCacheState α)
    (now : Nat) : GetOutcome α × SessionCacheState α :=
  match s.cache with
  | some entry =>
    if now - entry.timestamp < ttlMs then
      (.fresh entry.data, s)
    else if s.updateInProgress then
      (.awaitInFlight, s)
    else
      (.staleServed entry.data, { s with updateInProgress := true })
  | none =>
    if s.updateInProgress then
      (.awaitInFlight, s)
    else
      (.blockingRefresh, { s with updateInProgress := true })

/-- A burst of `get` calls on the session cache with no intervening
refresh completion. -/
def sessionCacheRunGets {α : Type} (ttlMs : Nat) (s : SessionCacheState α) :
    List Nat → SessionCacheState α × Nat
  | [] => (s, 0)
  | now :: rest =>
    let step := sessionCacheGet ttlMs s now
    let tail := sessionCacheRunGets ttlMs step.2 rest
    (tail.1, refreshCalls step.1 + tail.2)

/-! ## Cache lemmas -/

lemma prCacheGet_entry {α : Type} (s : PRCacheState α) (u : String)
    (now : Nat) (e : CacheEntry α) (hc : s.cache u = some e) :
    prCacheGet s u now =
      if now - e.lastInteraction < prCacheTtlMs then
        (.fresh e.data,
         { s with cache := setAt s.cache u (some { e with lastInteraction := now }) })
      else if s.inFlight u then (.awaitInFlight, s)
      else (.staleServed e.data,
        { s with inFlight := setAt s.inFlight u true }) := by
  unfold prCacheGet
  rw [hc]

lemma prCacheGet_noentry {α : Type} (s : PRCacheState α) (u : String)
    (now : Nat) (hc : s.cache u = none) :
    prCacheGet s u now =
      if s.inFlight u then (.awaitInFlight, s)
      else (.blockingRefresh,
        { s with inFlight := setAt s.inFlight u true }) := by
  unfold prCacheGet
  rw [hc]

lemma prCacheGet_inflight_stays {α : Type} (s : PRCacheState α)
    (u : String) (now : Nat) (h : s.inFlight u = true) :
    refreshCalls (prCacheGet s u now).1 = 0 ∧
    (prCacheGet s u now).2.inFlight u = true := by
  cases hc : s.cache u with
  | some e =>
    rw [prCacheGet_entry s u now e hc]
    by_cases hf : now - e.lastInteraction < prCacheTtlMs
    · simp [hf, refreshCalls, h]
    · simp [hf, h, refreshCalls]
  | none =>
    rw [prCacheGet_noentry s u now hc]
    simp [h, refreshCalls]

lemma prCacheGet_start {α : Type} (s : PRCacheState α) (u : String)
    (now : Nat) (h : s.inFlight u = false) :
    (refreshCalls (prCacheGet s u now).1 = 0 ∧
      (prCacheGet s u now).2.inFlight u = false) ∨
    (refreshCalls (prCacheGet s u now).1 = 1 ∧
      (prCacheGet s u now).2.inFlight u = true) := by
  cases hc : s.cache u with
  | some e =>
    rw [prCacheGet_entry s u now e hc]
    by_cases hf : now - e.lastInteraction < prCacheTtlMs
    · exact Or.inl (by simp [hf, refreshCalls, h])
    · exact Or.inr (by simp [hf, h, refreshCalls, setAt])
  | none =>
    rw [prCacheGet_noentry s u now hc]
    exact Or.inr (by simp [h, refreshCalls, setAt])

lemma prCacheRunGets_inflight {α : Type} (u : String) :
    ∀ (nows : List Nat) (s : PRCacheState α), s.inFlight u = true →
      (prCacheRunGets s u nows).2 = 0
  | [], _, _ => rfl
  | now :: rest, s, h => by
    have h1 := prCacheGet_inflight_stays s u now h
    simp only [prCacheRunGets]
    rw [h1.1, prCacheRunGets_inflight u rest _ h1.2]

lemma prCacheRunGets_single {α : Type} (u : String) :
    ∀ (nows : List Nat) (s : PRCacheState α), s.inFlight u = false →
      (prCacheRunGets s u nows).2 ≤ 1
  | [], _, _ => by simp [prCacheRunGets]
  | now :: rest, s, h => by
    simp only [prCacheRunGets]
    rcases prCacheGet_start s u now h with ⟨hc, hstate⟩ | ⟨hc, hstate⟩
    · rw [hc]
      simpa using prCacheRunGets_single u rest _ hstate
    · rw [hc, prCacheRunGets_inflight u rest _ hstate]

lemma sessionCacheGet_entry {α : Type} (ttlMs : Nat)
    (t : SessionCacheState α) (now : Nat) (e : SessionCacheEntry α)
    (hc : t.cache = some e) :
    sessionCacheGet ttlMs t now =
      if now - e.timestamp < ttlMs then (.fresh e.data, t)
      else if t.updateInProgress then (.awaitInFlight, t)
      else (.staleServed e.data, { t with updateInProgress := true }) := by
  unfold sessionCacheGet
  rw [hc]

lemma sessionCacheGet_noentry {α : Type} (ttlMs : Nat)
    (t : SessionCacheState α) (now : Nat) (hc : t.cache = none) :
    sessionCacheGet ttlMs t now =
      if t.updateInProgress then (.awaitInFlight, t)
      else (.blockingRefresh, { t with updateInProgress := true }) := by
  unfold sessionCacheGet
  rw [hc]

lemma sessionCacheGet_inflight_stays {α : Type} (ttlMs : Nat)
    (t : SessionCacheState α) (now : Nat) (h : t.updateInProgress = true) :
    refreshCalls (sessionCacheGet ttlMs t now).1 = 0 ∧
    (sessionCacheGet ttlMs t now).2.updateInProgress = true := by
  cases hc : t.cache with
  | some e =>
    rw [sessionCacheGet_entry ttlMs t now e hc]
    by_cases hf : now - e.timestamp < ttlMs
    · simp [hf, refreshCalls, h]
    · simp [hf, h, refreshCalls]
  | none =>
    rw [sessionCacheGet_noentry ttlMs t now hc]
    simp [h, refreshCalls]

lemma sessionCacheGet_start {α : Type} (ttlMs : Nat)
    (t : SessionCacheState α) (now : Nat) (h : t.updateInProgress = false) :
    (refreshCalls (sessionCacheGet ttlMs t now).1 = 0 ∧
      (sessionCacheGet ttlMs t now).2.updateInProgress = false) ∨
    (refreshCalls (sessionCacheGet ttlMs t now).1 = 1 ∧
      (sessionCacheGet ttlMs t now).2.updateInProgress = true) := by
  cases hc : t.cache with
  | some e =>
    rw [sessionCacheGet_entry ttlMs t now e hc]
    by_cases hf : now - e.timestamp < ttlMs
    · exact Or.inl (by simp [hf, refreshCalls, h])
    · exact Or.inr (by simp [hf, h, refreshCalls])
  | none =>
    rw [sessionCacheGet_noentry ttlMs t now hc]
    exact Or.inr (by simp [h, refreshCalls])

lemma sessionCacheRunGets_inflight {α : Type} (ttlMs : Nat) :
    ∀ (nows : List Nat) (t : SessionCacheState α),
      t.updateInProgress = true → (sessionCacheRunGets ttlMs t nows).2 = 0
  | [], _, _ => rfl
  | now :: rest, t, h => by
    have h1 := sessionCacheGet_inflight_stays ttlMs t now h
    simp only [sessionCacheRunGets]
    rw [h1.1, sessionCacheRunGets_inflight ttlMs rest _ h1.2]

lemma sessionCacheRunGets_single {α : Type} (ttlMs : Nat) :
    ∀ (nows : List Nat) (t : SessionCacheState α),
      t.updateInProgress = false → (sessionCacheRunGets ttlMs t nows).2 ≤ 1
  | [], _, _ => by simp [sessionCacheRunGets]
  | now :: rest, t, h => by
    simp only [sessionCacheRunGets]
    rcases sessionCacheGet_start ttlMs t now h with ⟨hc, hstate⟩ | ⟨hc, hstate⟩
    · rw [hc]
      simpa using sessionCacheRunGets_single ttlMs rest _ hstate
    · rw [hc, sessionCacheRunGets_inflight ttlMs rest _ hstate]

/-- C2: for every cache key, a `get` hitting an entry within TTL returns
exactly the cached payload, issues no refresh call, and leaves the
in-flight map untouched; and starting from a state with no refresh in
flight for the key, any burst of `get` calls (stale, missing or fresh
entries alike, no completion in between) issues at most one refresh —
with a refresh already in flight, it issues none.  Both the per-user PR
cache and the global session cache obey the policy. -/
theorem cache_single_flight_policy {α : Type} (s : PRCacheState α)
    (u : String) (now : Nat) (nows : List Nat) (ttlMs : Nat)
    (t : SessionCacheState α) (tnow : Nat) (tnows : List Nat) :
    (∀ e : CacheEntry α, s.cache u = some e →
      now - e.lastInteraction < prCacheTtlMs →
      (prCacheGet s u now).1 = .fresh e.data ∧
      refreshCalls (prCacheGet s u now).1 = 0 ∧
      (prCacheGet s u now).2.inFlight = s.inFlight) ∧
    (s.inFlight u = false → (prCacheRunGets s u nows).2 ≤ 1) ∧
    (s.inFlight u = true → (prCacheRunGets s u nows).2 = 0) ∧
    (∀ e : SessionCacheEntry α, t.cache = some e →
      tnow - e.timestamp < ttlMs →
      (sessionCacheGet ttlMs t tnow).1 = .fresh e.data ∧
      refreshCalls (sessionCacheGet ttlMs t tnow).1 = 0 ∧
      (sessionCacheGet ttlMs t tnow).2.updateInProgress
        = t.updateInProgress) ∧
    (t.updateInProgress = false →
      (sessionCacheRunGets ttlMs t tnows).2 ≤ 1) ∧
    (t.updateInProgress = true →
      (sessionCacheRunGets ttlMs t tnows).2 = 0) := by
  refine ⟨?_, prCacheRunGets_single u nows s,
    prCacheRunGets_inflight u nows s, ?_,
    sessionCacheRunGets_single ttlMs tnows t,
    sessionCacheRunGets_inflight ttlMs tnows t⟩
  · intro e hc hf
    rw [prCacheGet_entry s u now e hc]
    simp [hf, refreshCalls]
  · intro e hc hf
    rw [sessionCacheGet_entry ttlMs t tnow e hc]
    simp [hf, refreshCalls]

def prCacheFreshW : PRCacheState Nat :=
  { cache := fun u => if u = "ann" then
      some { data := 42, timestamp := 1000, lastInteraction := 1000 }
      else none
    inFlight := fun _ => false }

def prCacheStaleW : PRCacheState Nat :=
  { cache := fun u => if u = "ann" then
      some { data := 42, timestamp := 0, lastInteraction := 0 }
      else none
    inFlight := fun _ => false }

def sessionCacheBusyW : SessionCacheState Nat :=
  { cache := none, updateInProgress := true }

theorem cache_single_flight_policy_witness :
    (prCacheGet prCacheFreshW "ann" 1500).1 = .fresh 42 ∧
    (prCacheRunGets prCacheStaleW "ann"
      [9000000, 9000000, 9000000, 9000000, 9000000, 9000000, 9000000,
       9000000, 9000000, 9000000]).2 ≤ 1 ∧
    (sessionCacheRunGets 30000 sessionCacheBusyW [0, 1, 2]).2 = 0 :=
  ⟨((cache_single_flight_policy prCacheFreshW "ann" 1500 [] 30000
      sessionCacheBusyW 0 []).1
      { data := 42, timestamp := 1000, lastInteraction := 1000 }
      rfl (by decide)).1,
   (cache_single_flight_policy prCacheStaleW "ann" 0
      [9000000, 9000000, 9000000, 9000000, 9000000, 9000000, 9000000,
       9000000, 9000000, 9000000] 30000 sessionCacheBusyW 0 []).2.1 rfl,
   (cache_single_flight_policy prCacheStaleW "ann" 0 [] 30000
      sessionCacheBusyW 0 [0, 1, 2]).2.2.2.2.2 rfl⟩

/-! ## Workflow orchestrator (PRService, pr-service.ts)

Each workflow is embedded as a function from an oracle environment to
the ordered trace of external actions it performed plus its outcome
(`Except` models a thrown error propagating to the caller). -/

/-- One external action performed by a workflow step. -/
inductive WorkAction where
  | closePRCall (repo : String) (number : Nat)
  | killSession (id : String)
  | removeDir (path : String)
  | getPRCall (repo : String) (number : Nat)
  | mkdirCall (path : String)
  | cloneCall (url : String) (path : String) (branch : String)
  | createSession (id : String) (dir : String)
  | handoverCall (id : String)
deriving DecidableEq, Repr

/-- `Config` (pr-service.ts); `prefixStr` is the session-name prefix. -/
structure Config where
  repo : String
  repoName : String
  clonesDir : String
  baseBranch : String
  prefixStr : String
deriving DecidableEq, Repr

/-- `path.join` for the two-segment joins the service performs. -/
def joinPath (a b : String) : String := a ++ "/" ++ b

/-- Oracles for `PRService.close`: outcome of `github.closePR`, the
`tmux.exists` / `tmux.kill` behaviour and `existsSync` on the clone. -/
structure CloseEnv where
  closePRResult : Except String Unit
  sessionById : String → Bool
  killResult : String → Except String Unit
  dirById : String → Bool

/-- `PRService.close` (pr-service.ts lines 254-272): close the PR on
GitHub first; a throw there propagates and aborts the rest.  Then kill
the tmux session only if it exists (a kill throw propagates), then
remove the clone directory only if it exists (`rmSync` with
`force: true` does not throw). -/
def prServiceClose (cfg : Config) (env : CloseEnv) (prNumber : Nat) :
    List WorkAction × Except String Unit :=
  match env.closePRResult with
  | .error e => ([.closePRCall cfg.repoName prNumber], .error e)
  | .ok _ =>
    let sessionId := cfg.prefixStr ++ toString prNumber
    let clonePath := joinPath cfg.clonesDir ("pr-" ++ toString prNumber)
    let t1 : List WorkAction := [.closePRCall cfg.repoName prNumber]
    if env.sessionById sessionId then
      match env.killResult sessionId with
      | .error e => (t1 ++ [.killSession sessionId], .error e)
      | .ok _ =>
        if env.dirById clonePath then
          (t1 ++ [.killSession sessionId, .removeDir clonePath], .ok ())
        else (t1 ++ [.killSession sessionId], .ok ())
    else
      if env.dirById clonePath then
        (t1 ++ [.removeDir clonePath], .ok ())
      else (t1, .ok ())

/-- Oracles for `PRService.setupExisting`: `github.getPR` result (`none`
models both a `null` return and a throw, which the service turns into
"not found"), `existsSync`, and the outcomes of `git.clone` and
`tmux.create`. -/
structure SetupEnv where
  getPRResult : Option PullRequest
  dirById : String → Bool
  cloneResult : Except String Unit
  createSessionResult : Except String Unit

/-- `PRService.setupExisting` (pr-service.ts lines 199-244): fetch the
PR (not-found is terminal); refuse with a conflict error if the target
clone directory already exists — checked before any mutating step; then
mkdir the clones root if missing, clone at the PR's branch, create the
tmux session and run the handover. -/
def setupExisting (cfg : Config) (env : SetupEnv) (prNumber : Nat) :
    List WorkAction × Except String Unit :=
  let t0 : List WorkAction := [.getPRCall cfg.repoName prNumber]
  match env.getPRResult with
  | none => (t0, .error ("PR #" ++ toString prNumber ++ " not found"))
  | some pr =>
    let clonePath := joinPath cfg.clonesDir ("pr-" ++ toString pr.number)
    if env.dirById clonePath then
      (t0, .error ("Clone already exists at " ++ clonePath))
    else
      let t1 := if env.dirById cfg.clonesDir then t0
        else t0 ++ [.mkdirCall cfg.clonesDir]
      let t2 := t1 ++ [.cloneCall cfg.repo clonePath pr.branch]
      match env.cloneResult with
      | .error e => (t2, .error e)
      | .ok _ =>
        let sessionId := cfg.prefixStr ++ toString pr.number
        let t3 := t2 ++ [.createSession sessionId clonePath]
        match env.createSessionResult with
        | .error e => (t3, .error e)
        | .ok _ => (t3 ++ [.handoverCall sessionId], .ok ())

/-- Actions that mutate external state (destroy, create or overwrite
something); the lookups `getPRCall` are reads. -/
def isDestructive : WorkAction → Bool
  | .getPRCall _ _ => false
  | _ => true

/-- C5: teardown closes the review request first (the trace always
starts with `closePRCall`); with the request closed, a missing session
and a missing clone directory are both skipped, so teardown succeeds
having done nothing but close the request; and a failure closing the
request propagates to the caller with neither the session kill nor the
directory removal attempted. -/
theorem prServiceClose_policy (cfg : Config) (env : CloseEnv)
    (prNumber : Nat) :
    (prServiceClose cfg env prNumber).1.head?
      = some (.closePRCall cfg.repoName prNumber) ∧
    (env.closePRResult = .ok () →
      env.sessionById (cfg.prefixStr ++ toString prNumber) = false →
      env.dirById (joinPath cfg.clonesDir ("pr-" ++ toString prNumber))
        = false →
      prServiceClose cfg env prNumber
        = ([.closePRCall cfg.repoName prNumber], .ok ())) ∧
    (∀ e : String, env.closePRResult = .error e →
      prServiceClose cfg env prNumber
        = ([.closePRCall cfg.repoName prNumber], .error e)) := by
  refine ⟨?_, ?_, ?_⟩
  · cases hc : env.closePRResult with
    | error e =>
      unfold prServiceClose
      rw [hc]
      rfl
    | ok v =>
      unfold prServiceClose
      rw [hc]
      by_cases hs : env.sessionById (cfg.prefixStr ++ toString prNumber)
      · simp only [hs, if_true]
        cases env.killResult (cfg.prefixStr ++ toString prNumber) with
        | error e => simp
        | ok _ =>
          by_cases hd : env.dirById
              (joinPath cfg.clonesDir ("pr-" ++ toString prNumber))
          · simp [hd]
          · simp [hd]
      · simp only [hs, if_false]
        by_cases hd : env.dirById
            (joinPath cfg.clonesDir ("pr-" ++ toString prNumber))
        · simp [hd]
        · simp [hd]
  · intro h1 h2 h3
    unfold prServiceClose
    rw [h1]
    simp [h2, h3]
  · intro e he
    unfold prServiceClose
    rw [he]

def cfgCloseW : Config :=
  { repo := "git@github.com:octo/rocket.git", repoName := "octo/rocket",
    clonesDir := "/clones", baseBranch := "main", prefixStr := "mfh-" }

def envCloseSkipW : CloseEnv :=
  { closePRResult := .ok (), sessionById := fun _ => false,
    killResult := fun _ => .ok (), dirById := fun _ => false }

def envCloseFailW : CloseEnv :=
  { closePRResult := .error "Failed to close PR: boom",
    sessionById := fun _ => true, killResult := fun _ => .ok (),
    dirById := fun _ => true }

theorem prServiceClose_policy_witness :
    prServiceClose cfgCloseW envCloseSkipW 7
      = ([.closePRCall "octo/rocket" 7], .ok ()) ∧
    prServiceClose cfgCloseW envCloseFailW 7
      = ([.closePRCall "octo/rocket" 7],
         .error "Failed to close PR: boom") :=
  ⟨(prServiceClose_policy cfgCloseW envCloseSkipW 7).2.1 rfl rfl rfl,
   (prServiceClose_policy cfgCloseW envCloseFailW 7).2.2
     "Failed to close PR: boom" rfl⟩

/-- C6: setup-existing against a target clone directory that already
exists fails with the conflict error and performs no destructive action:
its whole trace is the single `getPR` read — nothing is removed or
overwritten, nothing cloned, no session created, no handover run. -/
theorem setupExisting_conflict (cfg : Config) (env : SetupEnv)
    (prNumber : Nat) (pr : PullRequest)
    (hpr : env.getPRResult = some pr)
    (hdir : env.dirById (joinPath cfg.clonesDir ("pr-" ++ toString pr.number))
      = true) :
    setupExisting cfg env prNumber
      = ([.getPRCall cfg.repoName prNumber],
         .error ("Clone already exists at "
           ++ joinPath cfg.clonesDir ("pr-" ++ toString pr.number))) ∧
    ∀ a ∈ (setupExisting cfg env prNumber).1, isDestructive a = false := by
  have h1 : setupExisting cfg env prNumber
      = ([.getPRCall cfg.repoName prNumber],
         .error ("Clone already exists at "
           ++ joinPath cfg.clonesDir ("pr-" ++ toString pr.number))) := by
    unfold setupExisting
    rw [hpr]
    simp [hdir]
  refine ⟨h1, ?_⟩
  rw [h1]
  intro a ha
  rw [List.mem_singleton.mp ha]
  rfl

def prSetupW : PullRequest :=
  { number := 7, title := "continue work", branch := "feat-y",
    baseBranch := "main", repo := "octo/rocket", state := .opened,
    url := "https://github.com/octo/rocket/pull/7", author := "ann",
    isDraft := true, created := 1, updated := 2 }

def cfgSetupW : Config :=
  { repo := "git@github.com:octo/rocket.git", repoName := "octo/rocket",
    clonesDir := "/clones", baseBranch := "main", prefixStr := "mfh-" }

def envSetupW : SetupEnv :=
  { getPRResult := some prSetupW, dirById := fun _ => true,
    cloneResult := .ok (), createSessionResult := .ok () }

theorem setupExisting_conflict_witness :
    setupExisting cfgSetupW envSetupW 7
      = ([.getPRCall "octo/rocket" 7],
         .error "Clone already exists at /clones/pr-7") ∧
    ∀ a ∈ (setupExisting cfgSetupW envSetupW 7).1,
      isDestructive a = false :=
  setupExisting_conflict cfgSetupW envSetupW 7 prSetupW rfl rfl

/-! ## Claim about `parseRepo` -/

/-- C7: `parseRepo` maps both the SSH-style and the HTTPS-style GitHub
remote URL to the `owner/repo` identifier, and every remote URL the
hosting pattern does not match produces an explicit parse error — never
a guessed or default value. -/
theorem parseRepo_spec :
    parseRepo "git@github.com:owner/repo.git" = .ok "owner/repo" ∧
    parseRepo "https://github.com/owner/repo" = .ok "owner/repo" ∧
    ∀ remote : String, scanRepo remote.data = none →
      parseRepo remote = .error ("Invalid GitHub remote: " ++ remote) := by
  refine ⟨rfl, rfl, ?_⟩
  intro remote h
  unfold parseRepo
  rw [h]

theorem parseRepo_spec_witness :
    parseRepo "file:///srv/local-mirror"
      = .error "Invalid GitHub remote: file:///srv/local-mirror" :=
  parseRepo_spec.2.2 "file:///srv/local-mirror" rfl

/-! ## PR metadata generation (`ClaudeService.generateMetadata`,
session-discovery.ts lines 157-215)

The `claude -p` subprocess is an oracle: `none` models the invocation
failing (non-zero exit / timeout), `some output` its stdout.  The
response parsing mirrors the `/BRANCH:\s*(.+)/`-style regexes, and any
parse failure falls through to the same catch-all fallback. -/

/-- `ClaudeMetadata` (session-discovery.ts). -/
structure ClaudeMetadata where
  branchName : String
  title : String
  body : String
deriving DecidableEq, Repr

/-- First line of text (`.+` after backtracking): the longest run of
non-line-terminator chars. -/
def takeLine (cs : List Char) : List Char := cs.takeWhile isJsDot

/-- Match `\s*(.+)` at the current position, with the greedy-then-
backtrack semantics of the JS engine: prefer consuming whitespace, and
fall back to starting the capture here when the char is `.`-matchable. -/
def matchRest : List Char → Option (List Char)
  | [] => none
  | c :: cs =>
    if isJsSpace c then
      match matchRest cs with
      | some cap => some cap
      | none => if isJsDot c then some (takeLine (c :: cs)) else none
    else if isJsDot c then some (takeLine (c :: cs)) else none

/-- Try `TAG:\s*(.+)` at the current position. -/
def matchTagAt (tag cs : List Char) : Option (List Char) :=
  if tag.isPrefixOf cs then matchRest (cs.drop tag.length) else none

/-- Leftmost-match scan for `TAG:\s*(.+)`, like `output.match(...)`. -/
def findTag (tag : List Char) : List Char → Option (List Char)
  | [] => none
  | c :: cs =>
    match matchTagAt tag (c :: cs) with
    | some cap => some cap
    | none => findTag tag cs

/-- The `try` branch of `generateMetadata`: extract the three tagged
lines; `none` when any of the three regexes fails to match (the source
then throws, landing in the same catch as an invocation failure). -/
def parseClaudeOutput (output : String) : Option ClaudeMetadata :=
  match findTag "BRANCH:".data output.data,
      findTag "TITLE:".data output.data,
      findTag "BODY:".data output.data with
  | some b, some t, some bo =>
    some { branchName := String.mk (trimList b)
           title := String.mk ((trimList t).take 72)
           body := String.mk (trimList bo) }
  | _, _, _ => none

/-- `prompt.split(/[.!?\n]/)[0]`: the prefix before the first sentence
punctuation or newline. -/
def isSentenceBreak (c : Char) : Bool :=
  c == '.' || c == '!' || c == '?' || c == '\n'

def firstSegment (l : List Char) : List Char :=
  l.takeWhile (fun c => !(isSentenceBreak c))

/-- The catch-all fallback of `generateMetadata`: a timestamped branch
name, `feat: <first clause>` truncated to 72 chars, and the prompt as
body. -/
def fallbackMetadata (prompt : String) (timestamp : Nat) : ClaudeMetadata :=
  { branchName := "ad/feat/task-" ++ toString timestamp
    title := String.mk
      (("feat: ".data ++ trimList (firstSegment prompt.data)).take 72)
    body := "Working on: " ++ prompt }

/-- `ClaudeService.generateMetadata`: parse the subprocess output; on a
failed invocation or an unparseable response, return the fallback.  The
function is total — the source catches every error. -/
def generateMetadata (claudeOutput : Option String) (prompt : String)
    (timestamp : Nat) : ClaudeMetadata :=
  match claudeOutput with
  | some out =>
    match parseClaudeOutput out with
    | some m => m
    | none => fallbackMetadata prompt timestamp
  | none => fallbackMetadata prompt timestamp

/-- C8: whenever the Claude invocation fails (`none`) or its response
cannot be parsed, `generateMetadata` returns the fallback metadata (it
cannot throw — it is total): the title is `feat: ` followed by the first
segment of the prompt split at sentence punctuation (truncated to 72
chars, so it always begins with `feat:`), and the branch name embeds the
numeric timestamp. -/
theorem generateMetadata_fallback_spec (prompt : String) (ts : Nat)
    (out : Option String) (hfail : out.bind parseClaudeOutput = none) :
    generateMetadata out prompt ts = fallbackMetadata prompt ts ∧
    (generateMetadata out prompt ts).branchName
      = "ad/feat/task-" ++ toString ts ∧
    (generateMetadata out prompt ts).title.data
      = ("feat: ".data ++ trimList (firstSegment prompt.data)).take 72 ∧
    ∃ r : List Char, (generateMetadata out prompt ts).title.data
      = "feat:".data ++ r := by
  have hgen : generateMetadata out prompt ts = fallbackMetadata prompt ts := by
    cases out with
    | none => rfl
    | some o =>
      have hp : parseClaudeOutput o = none := by simpa using hfail
      show (match parseClaudeOutput o with
        | some m => m
        | none => fallbackMetadata prompt ts) = fallbackMetadata prompt ts
      rw [hp]
  refine ⟨hgen, by rw [hgen]; rfl, by rw [hgen]; rfl, ?_⟩
  rw [hgen]
  refine ⟨Char.ofNat 32 :: (trimList (firstSegment prompt.data)).take 66, ?_⟩
  show ("feat: ".data ++ trimList (firstSegment prompt.data)).take 72 = _
  rw [List.take_append_eq_append_take]
  rfl

theorem generateMetadata_fallback_spec_witness :
    generateMetadata none "Add dark mode toggle" 1717171717000
      = fallbackMetadata "Add dark mode toggle" 1717171717000 ∧
    (generateMetadata none "Add dark mode toggle" 1717171717000).branchName
      = "ad/feat/task-" ++ toString 1717171717000 ∧
    (generateMetadata none "Add dark mode toggle" 1717171717000).title.data
      = ("feat: ".data
          ++ trimList (firstSegment "Add dark mode toggle".data)).take 72 ∧
    ∃ r : List Char,
      (generateMetadata none "Add dark mode toggle" 1717171717000).title.data
        = "feat:".data ++ r :=
  generateMetadata_fallback_spec "Add dark mode toggle" 1717171717000
    none rfl

lemma parseClaudeOutput_title_le (o : String) (m : ClaudeMetadata)
    (h : parseClaudeOutput o = some m) : m.title.length ≤ 72 := by
  unfold parseClaudeOutput at h
  cases hb : findTag "BRANCH:".data o.data with
  | none => rw [hb] at h; cases h
  | some b =>
    rw [hb] at h
    cases ht : findTag "TITLE:".data o.data with
    | none => rw [ht] at h; cases h
    | some t =>
      rw [ht] at h
      cases hbo : findTag "BODY:".data o.data with
      | none => rw [hbo] at h; cases h
      | some bo =>
        rw [hbo] at h
        cases h
        show ((trimList t).take 72).length ≤ 72
        exact List.length_take_le _ _

/-- C10: on every path — parsed Claude response or fallback — the title
`generateMetadata` returns is at most 72 characters long (both paths
apply `.substring(0, 72)`). -/
theorem generateMetadata_title_le_72 (out : Option String)
    (prompt : String) (ts : Nat) :
    (generateMetadata out prompt ts).title.length ≤ 72 := by
  have hfb : (fallbackMetadata prompt ts).title.length ≤ 72 := by
    show (("feat: ".data
      ++ trimList (firstSegment prompt.data)).take 72).length ≤ 72
    exact List.length_take_le _ _
  cases out with
  | none => exact hfb
  | some o =>
    cases hp : parseClaudeOutput o with
    | none =>
      show (match parseClaudeOutput o with
        | some m => m
        | none => fallbackMetadata prompt ts).title.length ≤ 72
      rw [hp]
      exact hfb
    | some m =>
      show (match parseClaudeOutput o with
        | some m => m
        | none => fallbackMetadata prompt ts).title.length ≤ 72
      rw [hp]
      exact parseClaudeOutput_title_le o m hp

/-! ## Handover protocol (ClaudeHandoverService, handover.ts)

`initialize` builds one message from the fixed template, escapes every
embedded single quote as close-quote/escaped-quote/reopen-quote
(`.replace(/'/g, "'\\''")`), wraps the result in single quotes and sends
`claude '<escaped>'` to the session in a single `sendKeys` injection.
The round-trip claim is settled against a POSIX word parser: a string is
one literal token when it parses, unquoted whitespace ends a token, and
single quotes protect everything up to the matching quote. -/

/-- The handover context (handover.ts `initialize` argument). -/
structure HandoverContext where
  prNumber : Nat
  branch : String
  baseBranch : String
  userPrompt : String
  guidelines : String
deriving DecidableEq, Repr

/-- `buildContext` (handover.ts lines 35-54): the fixed template; the
guidelines block is present only when the guidelines string is nonempty
(JS string truthiness). -/
def buildContext (ctx : HandoverContext) : String :=
  "I\x27m working on PR #" ++ toString ctx.prNumber ++ " ("
    ++ ctx.branch ++ " -> " ++ ctx.baseBranch ++ ").\n\n"
    ++ "User\x27s request: " ++ ctx.userPrompt ++ "\n\n"
    ++ (if ctx.guidelines == "" then ""
        else "Project guidelines:\n" ++ ctx.guidelines ++ "\n")
    ++ "\n\nPlease help me implement this. Start by:\n"
    ++ "1. Updating the PR title and description if needed\n"
    ++ "2. Understanding the codebase context\n"
    ++ "3. Implementing the requested changes\n\n"
    ++ "Let me know when you\x27re ready to start!"

/-- `.replace(/'/g, "'\\''")`: every single quote becomes
quote, backslash, quote, quote. -/
def shellEscape : List Char → List Char
  | [] => []
  | c :: cs =>
    if c = squote then squote :: bslash :: squote :: squote :: shellEscape cs
    else c :: shellEscape cs

/-- Wrap an escaped payload in single quotes, as in
`claude '<escapedPrompt>'`. -/
def quoteWrap (s : List Char) : List Char := squote :: s ++ [squote]

/-- The full keys string `initialize` sends into the session with one
`tmux.sendKeys` call. -/
def handoverCmd (ctx : HandoverContext) : List Char :=
  "claude ".data ++ quoteWrap (shellEscape (buildContext ctx).data)

/-- Characters that end an unquoted shell word. -/
def isShellBlank (c : Char) : Bool := c == ' ' || c == '\t' || c == '\n'

/-- Shell word parser mode: outside quotes, inside single quotes, or
right after an unquoted backslash. -/
inductive ShMode where
  | unq
  | sq
  | esc
deriving DecidableEq, Repr

/-- Parse an entire string as exactly one shell word under POSIX quoting
rules, returning the literal token: a single quote toggles quoting, a
backslash outside quotes escapes the next char, unquoted whitespace
(token boundary) and unclosed quotes or a trailing escape make it
fail. -/
def shellParseWord : ShMode → List Char → Option (List Char)
  | .unq, [] => some []
  | .sq, [] => none
  | .esc, [] => none
  | .unq, c :: cs =>
    if c = squote then shellParseWord .sq cs
    else if c = bslash then shellParseWord .esc cs
    else if isShellBlank c then none
    else (shellParseWord .unq cs).map (fun w => c :: w)
  | .sq, c :: cs =>
    if c = squote then shellParseWord .unq cs
    else (shellParseWord .sq cs).map (fun w => c :: w)
  | .esc, c :: cs => (shellParseWord .unq cs).map (fun w => c :: w)

lemma shellParseWord_sq_cons (c : Char) (cs : List Char)
    (h : ¬ c = squote) :
    shellParseWord .sq (c :: cs)
      = (shellParseWord .sq cs).map (fun w => c :: w) := by
  rw [shellParseWord, if_neg h]

lemma shellEscape_roundtrip (l : List Char) :
    shellParseWord .sq (shellEscape l ++ [squote]) = some l := by
  induction l with
  | nil => rfl
  | cons c cs ih =>
    by_cases hc : c = squote
    · subst hc
      have h1 : shellParseWord .sq (shellEscape (squote :: cs) ++ [squote])
          = (shellParseWord .sq (shellEscape cs ++ [squote])).map
              (fun w => squote :: w) := rfl
      rw [h1, ih]
      rfl
    · have he : shellEscape (c :: cs) = c :: shellEscape cs := by
        rw [shellEscape, if_neg hc]
      rw [he, List.cons_append, shellParseWord_sq_cons c _ hc, ih]
      rfl

/-- C9: the handover message built from the fixed template, escaped by
closing and re-opening every embedded single quote and delivered inside
single quotes as the argument of the one injected `claude` command,
parses under shell quoting rules back to exactly the original message as
one literal token. -/
theorem handover_escape_roundtrip (ctx : HandoverContext) :
    handoverCmd ctx
      = "claude ".data ++ quoteWrap (shellEscape (buildContext ctx).data) ∧
    shellParseWord .unq (quoteWrap (shellEscape (buildContext ctx).data))
      = some (buildContext ctx).data := by
  have hstep : ∀ cs : List Char,
      shellParseWord .unq (squote :: cs) = shellParseWord .sq cs := by
    intro cs
    rw [shellParseWord, if_pos rfl]
  refine ⟨rfl, ?_⟩
  rw [quoteWrap]
  exact (hstep _).trans (shellEscape_roundtrip _)
